import Mathlib

/-!
# claude-tray — verification of the authentication and usage-polling core

Shallow embedding of the claude-tray tray application (Rust sources
`src/claude.rs`, `src/utils.rs`, `src/main.rs`, `src/api.rs`) and proofs about
its specified behaviour.

Conventions of the embedding:

* Bytes are `Nat` values, with `< 256` hypotheses where a proof needs them;
  a Rust `&str`/`String` crossing a byte boundary (hashing, encoding) is
  modelled as its byte list, and text that is only compared or copied is
  modelled as `String` or `List Char`.
* Randomness (`rand::random`) is modelled by passing the drawn bytes as an
  explicit argument; the Rust type `[u8; 32]` fixes their number to 32.
* JSON bodies are modelled as `Json` values (numbers as `ℚ`); the
  `serde_json::from_str` text layer is abstracted as a `Body` that is either
  a parsed `Json` value or unparsable raw text.
* The tokio polling task is modelled as a function over the finite list of
  per-tick environments it would observe (token lookup result and usage
  fetch outcome), and the updater command loop as a step function over an
  explicit controller state with ghost tracking of live polling loops.
-/

/-! ## base64url (no padding) and lowercase hex codecs

`claude.rs` uses `base64::engine::general_purpose::URL_SAFE_NO_PAD.encode`
for the code verifier and the code challenge, and `hex::encode` for the
state. The encoders below follow those crates' algorithms; the decoders are
the spec-side inverses used to state "decodes to N bytes". -/

/-- The base64url alphabet (RFC 4648 §5), as used by Rust
`base64::engine::general_purpose::URL_SAFE_NO_PAD`. -/
def b64urlAlphabet : List Char :=
  "ABCDEFGHIJKLMNOPQRSTUVWXYZabcdefghijklmnopqrstuvwxyz0123456789-_".toList

/-- Character for a six-bit group. Indices ≥ 64 never occur. -/
def b64Char (n : Nat) : Char := b64urlAlphabet.getD n 'A'

/-- Index of a character in the base64url alphabet, for decoding. -/
def b64Sextet (c : Char) : Option Nat := b64urlAlphabet.indexOf? c

/-- base64url encoding without padding: 3 bytes become 4 characters, a final
remainder of 1 or 2 bytes becomes 2 or 3 characters and no `'='` is
emitted. -/
def b64urlEncode : List Nat → List Char
  | [] => []
  | [b1] => [b64Char (b1 / 4), b64Char (b1 % 4 * 16)]
  | [b1, b2] =>
      [b64Char (b1 / 4), b64Char (b1 % 4 * 16 + b2 / 16), b64Char (b2 % 16 * 4)]
  | b1 :: b2 :: b3 :: rest =>
      b64Char (b1 / 4) :: b64Char (b1 % 4 * 16 + b2 / 16) ::
        b64Char (b2 % 16 * 4 + b3 / 64) :: b64Char (b3 % 64) :: b64urlEncode rest

/-- base64url decoding without padding (strict: trailing bits must be
zero, as the canonical encoding produces). -/
def b64urlDecode : List Char → Option (List Nat)
  | [] => some []
  | [_] => none
  | [c1, c2] => do
      let s1 ← b64Sextet c1
      let s2 ← b64Sextet c2
      if s2 % 16 = 0 then some [s1 * 4 + s2 / 16] else none
  | [c1, c2, c3] => do
      let s1 ← b64Sextet c1
      let s2 ← b64Sextet c2
      let s3 ← b64Sextet c3
      if s3 % 4 = 0 then some [s1 * 4 + s2 / 16, s2 % 16 * 16 + s3 / 4] else none
  | c1 :: c2 :: c3 :: c4 :: rest => do
      let s1 ← b64Sextet c1
      let s2 ← b64Sextet c2
      let s3 ← b64Sextet c3
      let s4 ← b64Sextet c4
      let tail ← b64urlDecode rest
      some ((s1 * 4 + s2 / 16) :: (s2 % 16 * 16 + s3 / 4) :: (s3 % 4 * 64 + s4) :: tail)

/-- The lowercase hex alphabet used by Rust `hex::encode`. -/
def hexAlphabet : List Char := "0123456789abcdef".toList

/-- Hex digit for a value below 16. -/
def hexChar (n : Nat) : Char := hexAlphabet.getD n '0'

/-- Value of a hex digit, for decoding. -/
def hexVal (c : Char) : Option Nat := hexAlphabet.indexOf? c

/-- Lowercase hex encoding: each byte becomes two digits. -/
def hexEncode : List Nat → List Char
  | [] => []
  | b :: rest => hexChar (b / 16) :: hexChar (b % 16) :: hexEncode rest

/-- Hex decoding: two digits back to one byte. -/
def hexDecode : List Char → Option (List Nat)
  | [] => some []
  | [_] => none
  | c1 :: c2 :: rest => do
      let h ← hexVal c1
      let l ← hexVal c2
      let tail ← hexDecode rest
      some ((h * 16 + l) :: tail)

/-- Characters that may appear unescaped in a URL (RFC 3986 unreserved). -/
def isUrlSafeChar (c : Char) : Bool :=
  c.isAlphanum || c = '-' || c = '_' || c = '.' || c = '~'

/-! ## SHA-256

`generate_code_challenge` in `claude.rs` feeds the verifier's bytes through
`sha2::Sha256` and base64url-encodes the 32-byte digest. The FIPS 180-4
algorithm is embedded below over `Nat` with explicit `% 2^32` wrap-around,
and validated against the standard test vectors. -/

/-- Truncation to a 32-bit word. -/
def w32 (n : Nat) : Nat := n % 4294967296

/-- Right rotation of a 32-bit word. -/
def rotr32 (x n : Nat) : Nat := w32 (x / 2 ^ n + x % 2 ^ n * 2 ^ (32 - n))

/-- Bitwise complement within 32 bits. -/
def not32 (x : Nat) : Nat := 4294967295 - w32 x

/-- SHA-256 `Ch` function. -/
def ch32 (x y z : Nat) : Nat := (x &&& y) ^^^ (not32 x &&& z)

/-- SHA-256 `Maj` function. -/
def maj32 (x y z : Nat) : Nat := ((x &&& y) ^^^ (x &&& z)) ^^^ (y &&& z)

/-- SHA-256 `Σ0`. -/
def bigSigma0 (x : Nat) : Nat := (rotr32 x 2 ^^^ rotr32 x 13) ^^^ rotr32 x 22

/-- SHA-256 `Σ1`. -/
def bigSigma1 (x : Nat) : Nat := (rotr32 x 6 ^^^ rotr32 x 11) ^^^ rotr32 x 25

/-- SHA-256 `σ0`. -/
def smallSigma0 (x : Nat) : Nat := (rotr32 x 7 ^^^ rotr32 x 18) ^^^ x / 2 ^ 3

/-- SHA-256 `σ1`. -/
def smallSigma1 (x : Nat) : Nat := (rotr32 x 17 ^^^ rotr32 x 19) ^^^ x / 2 ^ 10

/-- The 64 SHA-256 round constants. -/
def sha256K : List Nat := [
  1116352408, 1899447441, 3049323471, 3921009573, 961987163,
  1508970993, 2453635748, 2870763221, 3624381080, 310598401,
  607225278, 1426881987, 1925078388, 2162078206, 2614888103,
  3248222580, 3835390401, 4022224774, 264347078, 604807628,
  770255983, 1249150122, 1555081692, 1996064986, 2554220882,
  2821834349, 2952996808, 3210313671, 3336571891, 3584528711,
  113926993, 338241895, 666307205, 773529912, 1294757372,
  1396182291, 1695183700, 1986661051, 2177026350, 2456956037,
  2730485921, 2820302411, 3259730800, 3345764771, 3516065817,
  3600352804, 4094571909, 275423344, 430227734, 506948616,
  659060556, 883997877, 958139571, 1322822218, 1537002063,
  1747873779, 1955562222, 2024104815, 2227730452, 2361852424,
  2428436474, 2756734187, 3204031479, 3329325298]

/-- The SHA-256 initial hash value. -/
def sha256H0 : List Nat :=
  [1779033703, 3144134277, 1013904242, 2773480762,
   1359893119, 2600822924, 528734635, 1541459225]

/-- Big-endian 8-byte encoding of the bit length. -/
def be64 (n : Nat) : List Nat :=
  [n / 2 ^ 56 % 256, n / 2 ^ 48 % 256, n / 2 ^ 40 % 256, n / 2 ^ 32 % 256,
   n / 2 ^ 24 % 256, n / 2 ^ 16 % 256, n / 2 ^ 8 % 256, n % 256]

/-- FIPS 180-4 message padding: `0x80`, zeros to 56 mod 64, then the
64-bit big-endian bit length. -/
def sha256Pad (msg : List Nat) : List Nat :=
  msg ++ 128 :: (List.replicate ((119 - msg.length % 64) % 64) 0 ++ be64 (8 * msg.length))

/-- Big-endian 32-bit words of a byte list (the 16 words of one block). -/
def toWords32 : List Nat → List Nat
  | b1 :: b2 :: b3 :: b4 :: rest =>
      (b1 * 16777216 + b2 * 65536 + b3 * 256 + b4) :: toWords32 rest
  | _ => []

/-- Message-schedule extension: appends one word per fuel step, reading the
words 2, 7, 15 and 16 positions back. Called with fuel 48 on the 16 block
words to produce `w[0..63]`. -/
def scheduleAux : List Nat → Nat → List Nat
  | w, 0 => w
  | w, k + 1 =>
      let i := w.length
      scheduleAux (w ++ [w32 (smallSigma1 (w.getD (i - 2) 0) + w.getD (i - 7) 0 +
        smallSigma0 (w.getD (i - 15) 0) + w.getD (i - 16) 0)]) k

/-- One compression round on the state `[a, b, c, d, e, f, g, h]`. -/
def compressRound (s : List Nat) (kw : Nat × Nat) : List Nat :=
  match s with
  | [a, b, c, d, e, f, g, h] =>
      let t1 := w32 (h + bigSigma1 e + ch32 e f g + kw.1 + kw.2)
      let t2 := w32 (bigSigma0 a + maj32 a b c)
      [w32 (t1 + t2), a, b, c, w32 (d + t1), e, f, g]
  | _ => s

/-- Compress one 64-byte block into the running hash. -/
def compressBlock (h : List Nat) (block : List Nat) : List Nat :=
  let ws := scheduleAux (toWords32 block) 48
  let fin := (sha256K.zip ws).foldl compressRound h
  h.zipWith (fun x y => w32 (x + y)) fin

/-- Split a byte list into 64-byte chunks (fuel-driven; fuel is the length). -/
def chunks64Aux : Nat → List Nat → List (List Nat)
  | 0, _ => []
  | _ + 1, [] => []
  | fuel + 1, b :: bs => (b :: bs).take 64 :: chunks64Aux fuel ((b :: bs).drop 64)

/-- Big-endian bytes of a word list. -/
def wordsToBytes : List Nat → List Nat
  | [] => []
  | w :: rest =>
      w / 16777216 % 256 :: w / 65536 % 256 :: w / 256 % 256 :: w % 256 :: wordsToBytes rest

/-- SHA-256 digest (32 bytes) of a byte list. -/
def sha256 (msg : List Nat) : List Nat :=
  let padded := sha256Pad msg
  wordsToBytes ((chunks64Aux padded.length padded).foldl compressBlock sha256H0)

/-! ## PKCE generator (`claude.rs` lines 112–130)

`rand::random::<[u8; 32]>()` is modelled by passing the 32 drawn bytes as an
argument; the Rust array type fixes their number and range. -/

/-- `generate_code_verifier`: base64url-no-pad encoding of 32 random bytes. -/
def generate_code_verifier (randomBytes : List Nat) : List Char :=
  b64urlEncode randomBytes

/-- `generate_state`: lowercase hex encoding of 32 random bytes
(`hex::encode`). -/
def generate_state (randomBytes : List Nat) : List Char :=
  hexEncode randomBytes

/-- `generate_code_challenge`: base64url-no-pad encoding of the SHA-256
digest of the verifier's bytes (`verifier.as_bytes()` is the byte list). -/
def generate_code_challenge (codeVerifier : List Nat) : List Char :=
  b64urlEncode (sha256 codeVerifier)

/-! ## JSON values and serde-style parsers

JSON bodies are modelled as parsed values with numbers as `ℚ`; the parsers
below follow `serde_json`'s derive semantics for the structs in `claude.rs`:
a struct requires an object, required fields must be present with the right
type, `Option` fields default to `None` when missing or `null`, and unknown
fields are ignored. -/

/-- A JSON value; numbers are modelled as rationals. -/
inductive Json where
  | null
  | bool (b : Bool)
  | num (q : ℚ)
  | str (s : String)
  | arr (elems : List Json)
  | obj (fields : List (String × Json))

/-- Field lookup on an object; anything else has no fields. -/
def Json.getField (j : Json) (name : String) : Option Json :=
  match j with
  | .obj fields => fields.lookup name
  | _ => none

/-- Deserialize a `String`. -/
def parseString : Json → Option String
  | .str s => some s
  | _ => none

/-- Deserialize an `f32` field: any JSON number is accepted. -/
def parseF32 : Json → Option ℚ
  | .num q => some q
  | _ => none

/-- Deserialize a `u64`: the number must be a non-negative integer in
range. -/
def parseU64 : Json → Option Nat
  | .num q =>
      if q.den = 1 ∧ 0 ≤ q.num ∧ q.num ≤ 18446744073709551615 then some q.num.toNat
      else none
  | _ => none

/-- Deserialize a `bool`. -/
def parseBool : Json → Option Bool
  | .bool b => some b
  | _ => none

/-- A required struct field: must be present and parse. -/
def parseField {α : Type} (p : Json → Option α) (j : Json) (name : String) : Option α :=
  j.getField name >>= p

/-- An `Option<T>` struct field: missing or `null` is `None`; a present
non-null value must parse as `T`. -/
def parseOptField {α : Type} (p : Json → Option α) (j : Json) (name : String) :
    Option (Option α) :=
  match j.getField name with
  | none => some none
  | some .null => some none
  | some v => (p v).map some

/-- `UsagePeriod` from `claude.rs`. -/
structure UsagePeriod where
  utilization : ℚ
  resets_at : Option String

/-- Deserializer derived for `UsagePeriod`. -/
def parseUsagePeriod (j : Json) : Option UsagePeriod := do
  let u ← parseField parseF32 j "utilization"
  let r ← parseOptField parseString j "resets_at"
  pure ⟨u, r⟩

/-- `ExtraUsage` from `claude.rs`. -/
structure ExtraUsage where
  is_enabled : Bool
  monthly_limit : Option Nat
  used_credits : Option Nat
  utilization : Option ℚ

/-- Deserializer derived for `ExtraUsage`. -/
def parseExtraUsage (j : Json) : Option ExtraUsage := do
  let e ← parseField parseBool j "is_enabled"
  let m ← parseOptField parseU64 j "monthly_limit"
  let u ← parseOptField parseU64 j "used_credits"
  let ut ← parseOptField parseF32 j "utilization"
  pure ⟨e, m, u, ut⟩

/-- `ClaudeUsageResponse` from `claude.rs`: the success schema of the usage
endpoint. -/
structure ClaudeUsageResponse where
  five_hour : UsagePeriod
  seven_day : UsagePeriod
  seven_day_oauth_apps : Option UsagePeriod
  seven_day_opus : Option UsagePeriod
  seven_day_sonnet : Option UsagePeriod
  iguana_necktie : Option UsagePeriod
  seven_day_iguana_necktie : Option UsagePeriod
  extra_usage : ExtraUsage

/-- Deserializer derived for `ClaudeUsageResponse`. -/
def parseClaudeUsageResponse (j : Json) : Option ClaudeUsageResponse := do
  let fh ← parseField parseUsagePeriod j "five_hour"
  let sd ← parseField parseUsagePeriod j "seven_day"
  let oa ← parseOptField parseUsagePeriod j "seven_day_oauth_apps"
  let op ← parseOptField parseUsagePeriod j "seven_day_opus"
  let so ← parseOptField parseUsagePeriod j "seven_day_sonnet"
  let ig ← parseOptField parseUsagePeriod j "iguana_necktie"
  let si ← parseOptField parseUsagePeriod j "seven_day_iguana_necktie"
  let ex ← parseField parseExtraUsage j "extra_usage"
  pure ⟨fh, sd, oa, op, so, ig, si, ex⟩

/-- `ErrorDetails` from `claude.rs`. -/
structure ErrorDetails where
  error_visibility : String

/-- Deserializer derived for `ErrorDetails`. -/
def parseErrorDetails (j : Json) : Option ErrorDetails := do
  let v ← parseField parseString j "error_visibility"
  pure ⟨v⟩

/-- `ApiError` from `claude.rs`; `error_type` is serialized as `"type"`. -/
structure ApiError where
  error_type : String
  message : String
  details : ErrorDetails

/-- Deserializer derived for `ApiError`. -/
def parseApiError (j : Json) : Option ApiError := do
  let t ← parseField parseString j "type"
  let m ← parseField parseString j "message"
  let d ← parseField parseErrorDetails j "details"
  pure ⟨t, m, d⟩

/-- `ClaudeErrorResponse` from `claude.rs`: the structured-error schema;
`response_type` is serialized as `"type"`. -/
structure ClaudeErrorResponse where
  response_type : String
  error : ApiError
  request_id : String

/-- Deserializer derived for `ClaudeErrorResponse`. -/
def parseClaudeErrorResponse (j : Json) : Option ClaudeErrorResponse := do
  let t ← parseField parseString j "type"
  let e ← parseField parseApiError j "error"
  let r ← parseField parseString j "request_id"
  pure ⟨t, e, r⟩

/-! ## `get_usage` (`claude.rs` lines 261–300) -/

/-- A response body as `get_usage` sees it after `response.text()`: JSON
text parsed to a `Json` value, or raw text that is not valid JSON (on which
both `serde_json::from_str` attempts fail). -/
inductive Body where
  | json (j : Json)
  | malformed (raw : String)

/-- The `Json` view of a body, if it has one. -/
def bodyJson? : Body → Option Json
  | .json j => some j
  | .malformed _ => none

/-- Outcome of `get_usage`, with the data the source interpolates into its
`Err` strings made explicit: `apiError` carries the error type, message and
request id of `"api error ({}): {} [request_id: {}]"`, and `unrecognized`
carries the body of `"unexpected api response format: {}"`. -/
inductive GetUsageResult where
  | ok (usage : ClaudeUsageResponse)
  | apiError (errorType message requestId : String)
  | unrecognized (body : Body)

/-- `get_usage`'s response classification: the status is read for logging
but never branched on; the body is tried against the success schema first,
then against the structured-error schema, else reported unrecognized. -/
def get_usage (status : Nat) (body : Body) : GetUsageResult :=
  match bodyJson? body >>= parseClaudeUsageResponse with
  | some usage => .ok usage
  | none =>
      match bodyJson? body >>= parseClaudeErrorResponse with
      | some e => .apiError e.error.error_type e.error.message e.request_id
      | none => .unrecognized body

/-! ## Credential store (`claude.rs` lines 304–364) -/

/-- `ClaudeCredentials` from `claude.rs`: the persisted credential shape. -/
structure ClaudeCredentials where
  access_token : String
  refresh_token : String

/-- `Organization` from `claude.rs` (token-response metadata). -/
structure Organization where
  uuid : String
  name : String

/-- `Account` from `claude.rs` (token-response metadata). -/
structure Account where
  uuid : String
  email_address : String

/-- `AnthropicTokenResponse` from `claude.rs`: the full token-exchange
response. -/
structure AnthropicTokenResponse where
  access_token : String
  refresh_token : String
  expires_in : Nat
  token_type : String
  organization : Organization
  account : Account

/-- serde serialization of `ClaudeCredentials` at the JSON-value level: an
object with exactly the two declared fields, in declaration order. -/
def credentialsToJson (c : ClaudeCredentials) : Json :=
  .obj [("access_token", .str c.access_token), ("refresh_token", .str c.refresh_token)]

/-- `save_credentials_locally`: narrows the token response to the two secret
fields and writes their serialization. The filesystem write is modelled by
returning the written file content as a JSON value
(`serde_json::to_string_pretty` and `from_str` are mutually inverse at this
level); the function also returns the narrowed credentials, as the source
does. -/
def save_credentials_locally (credentials : AnthropicTokenResponse) :
    ClaudeCredentials × Json :=
  let credentials_json : ClaudeCredentials :=
    ⟨credentials.access_token, credentials.refresh_token⟩
  (credentials_json, credentialsToJson credentials_json)

/-- Deserializer derived for `ClaudeCredentials`. -/
def parseClaudeCredentials (j : Json) : Option ClaudeCredentials := do
  let a ← parseField parseString j "access_token"
  let r ← parseField parseString j "refresh_token"
  pure ⟨a, r⟩

/-- `get_local_credentials`, with the credentials-file content passed in
place of the `$HOME`-relative file read it performs. -/
def get_local_credentials (fileContent : Json) : Option ClaudeCredentials :=
  parseClaudeCredentials fileContent

/-! ## `extract_param_from_url` (`utils.rs`) and the OAuth callback -/

/-- Lowercasing of a character list, as `str::to_lowercase` acts on the
ASCII error messages involved. -/
def toLowerList (cs : List Char) : List Char := cs.map Char.toLower

/-- Index of the first occurrence of `needle` as a contiguous substring —
Rust `str::find(&str)`. -/
def findSubstr (needle : List Char) : List Char → Option Nat
  | [] => if needle.isPrefixOf [] then some 0 else none
  | c :: rest =>
      if needle.isPrefixOf (c :: rest) then some 0
      else (findSubstr needle rest).map (fun i => i + 1)

/-- Complement of the delimiter set `[' ', '&']` from `utils.rs` line 9. -/
def notDelim (c : Char) : Bool := !(c == ' ' || c == '&')

/-- `extract_param_from_url`: finds the first occurrence of `name=` anywhere
in the request text and returns what follows it up to the first space or
`'&'` (or the end of the text); when there is no occurrence, fails with the
lowercased `"<name> parameter not found in callback"` message. -/
def extract_param_from_url (request paramName : List Char) :
    Except (List Char) (List Char) :=
  match findSubstr (paramName ++ ['=']) request with
  | none => .error (toLowerList (paramName ++ " parameter not found in callback".toList))
  | some i => .ok ((request.drop (i + (paramName ++ ['=']).length)).takeWhile notDelim)

/-- The request-handling core of `wait_for_oauth_callback` (`claude.rs`
lines 150–166): given the request text read from the accepted connection,
extract `state`, compare it with the expected state, and only then extract
`code`. The error strings are the source's: extraction failure yields
`"<name> parameter not found in callback"` (the spec's `ParamNotFound`) and
a differing state yields `"state value is not the same"` (the spec's
`StateMismatch`). -/
def wait_for_oauth_callback (request expectedState : List Char) :
    Except (List Char) (List Char) :=
  match extract_param_from_url request "state".toList with
  | .error e => .error e
  | .ok receivedState =>
      if receivedState ≠ expectedState then
        .error "state value is not the same".toList
      else
        match extract_param_from_url request "code".toList with
        | .error e => .error e
        | .ok code => .ok code

/-- `needle` occurs as a contiguous substring of `hay` at position `i`. -/
def occursAt (needle hay : List Char) (i : Nat) : Prop :=
  needle.isPrefixOf (hay.drop i) = true

/-! ## The usage updater task (`main.rs` lines 204–287)

The task is modelled over the finite list of per-tick environments it would
observe. `main.rs` reads the token as
`tray.credentials.claude_ai_oauth.access_token` — an optional field — via
`handle.update`, which itself returns an `Option` (none once the tray is
gone); both layers appear in `TickEnv.lookup`. -/

/-- Environment of one fetch: either the transport fails before a body is
read (the `reqwest` send/read arms of `get_usage`), or a response arrives
with a status, its raw text (used in diagnostics) and its parsed body. -/
inductive FetchEnv where
  | transportFail (message : String)
  | response (status : Nat) (raw : String) (body : Body)

/-- The `Result<ClaudeUsageResponse, String>` of `get_usage` as the loop
observes it, including the source's error formatting. -/
def fetchResult : FetchEnv → Except String ClaudeUsageResponse
  | .transportFail m => .error ("error requesting usage: " ++ m)
  | .response status raw body =>
      match get_usage status body with
      | .ok usage => .ok usage
      | .apiError t m r =>
          .error ("api error (" ++ t ++ "): " ++ m ++ " [request_id: " ++ r ++ "]")
      | .unrecognized _ => .error ("unexpected api response format: " ++ raw)

/-- What one timer tick observes: the token-lookup result (outer `none` when
the tray handle is gone, inner option the `access_token` field) and the
fetch environment a `get_usage` call on this tick would encounter. -/
structure TickEnv where
  lookup : Option (Option String)
  fetch : FetchEnv

/-- Whether this tick's environment makes the loop break with an error. -/
def tickFails (t : TickEnv) : Bool :=
  match t.lookup with
  | some (some token) =>
      if token = "" then true
      else
        match fetchResult t.fetch with
        | .ok _ => false
        | .error _ => true
  | _ => true

/-- Whether this tick's environment makes the loop call `get_usage`. -/
def tickFetches (t : TickEnv) : Bool :=
  match t.lookup with
  | some (some token) => !(token = "")
  | _ => false

/-- Trace of the `loop` body of `usage_updater_task` over the ticks it
consumes: ticks entered, fetches performed, gauge updates applied, and the
error it broke with, if any. -/
structure LoopTrace where
  ticks : Nat
  fetches : Nat
  gaugeWrites : List (ℚ × ℚ)
  failure : Option String

/-- The `loop` of `usage_updater_task`: each tick looks the token up, breaks
on a missing or empty token, otherwise fetches; a fetch success updates the
gauges and continues, a fetch error breaks. A `failure := none` trace means
the provided ticks ran out with the loop still running. -/
def runLoop : List TickEnv → LoopTrace
  | [] => ⟨0, 0, [], none⟩
  | t :: rest =>
      match t.lookup with
      | none => ⟨1, 0, [], some "No access token found"⟩
      | some none => ⟨1, 0, [], some "No access token found"⟩
      | some (some token) =>
          if token = "" then ⟨1, 0, [], some "No access token found"⟩
          else
            match fetchResult t.fetch with
            | .ok usage =>
                let tr := runLoop rest
                ⟨tr.ticks + 1, tr.fetches + 1,
                  (usage.five_hour.utilization, usage.seven_day.utilization) ::
                    tr.gaugeWrites,
                  tr.failure⟩
            | .error e => ⟨1, 1, [], some ("Failed to fetch usage data: " ++ e)⟩

/-- The whole task: the loop trace plus the terminal actions performed when
the loop breaks with an error (`main.rs` lines 266–284): set `is_login` to
`false`, replace the credentials with `ClaudeCredentials::new_empty()`, and
send `Stop` on the updater channel. The terminal `handle.update` is modelled
as applied (the tray is alive to act on). -/
structure TaskRun where
  trace : LoopTrace
  loginSetFalse : Bool
  credentialCleared : Bool
  stopSent : Bool

/-- `usage_updater_task` over its tick environments. -/
def usage_updater_task (ticks : List TickEnv) : TaskRun :=
  let tr := runLoop ticks
  ⟨tr, tr.failure.isSome, tr.failure.isSome, tr.failure.isSome⟩

/-! ## The updater command loop (`main.rs` lines 165–187) -/

/-- The `UpdaterCommand` enum of `main.rs`. -/
inductive UpdaterCommand where
  | start
  | stop

/-- State of the updater command loop together with the tray facts the
claims speak about: `updater_task` is the `Option<JoinHandle>` slot,
`credential` the in-memory access token (`none` when missing), `live` ghost
state naming the polling loops actually running, and `nextId` a supply of
fresh task ids. -/
structure ControllerState where
  updater_task : Option Nat
  credential : Option String
  live : List Nat
  nextId : Nat

/-- One iteration of `while let Some(command) = updater_receiver.recv()`:
`Start` spawns `usage_updater_task` exactly when no task handle is present —
the credential is not consulted — and `Stop` takes and aborts the handle. -/
def controllerStep (s : ControllerState) : UpdaterCommand → ControllerState
  | .start =>
      if s.updater_task.isNone then
        { s with updater_task := some s.nextId, live := s.nextId :: s.live,
                 nextId := s.nextId + 1 }
      else s
  | .stop =>
      match s.updater_task with
      | some t =>
          { s with updater_task := none, live := s.live.filter (fun i => i != t) }
      | none => s

/-- Events the controller state reacts to: a received command, or a polling
loop ending on its own (its `break Err` path), which removes it from the
live set without touching the handle slot. -/
inductive ControllerEvent where
  | cmd (c : UpdaterCommand)
  | taskEnds (t : Nat)

/-- Effect of one event on the controller state. -/
def controllerObserve (s : ControllerState) : ControllerEvent → ControllerState
  | .cmd c => controllerStep s c
  | .taskEnds t => { s with live := s.live.filter (fun i => i != t) }

/-- The state `main` starts the command loop in: no task, and (for the
logged-out launch) no credential. -/
def controllerInit : ControllerState := ⟨none, none, [], 0⟩

/-- The controller state after a sequence of events from the initial
state. -/
def runController (events : List ControllerEvent) : ControllerState :=
  events.foldl controllerObserve controllerInit

/-- At most one polling loop lives at a time, and a live loop is the one the
handle slot tracks. -/
def controllerInv (s : ControllerState) : Prop :=
  s.live = [] ∨ ∃ t, s.live = [t] ∧ s.updater_task = some t

/-! ## Sample values for the concrete witnesses -/

/-- A body matching the success schema (`five_hour.utilization = 42.5`,
`seven_day.utilization = 10`). -/
def sampleUsageJson : Json :=
  .obj [("five_hour", .obj [("utilization", .num (85 / 2)), ("resets_at", .null)]),
        ("seven_day", .obj [("utilization", .num 10)]),
        ("extra_usage", .obj [("is_enabled", .bool false)])]

/-- The snapshot `sampleUsageJson` parses to. -/
def sampleUsage : ClaudeUsageResponse :=
  ⟨⟨85 / 2, none⟩, ⟨10, none⟩, none, none, none, none, none, ⟨false, none, none, none⟩⟩

/-- A body matching the structured-error schema. -/
def sampleErrorJson : Json :=
  .obj [("type", .str "error"),
        ("error", .obj [("type", .str "rate_limit_error"),
                        ("message", .str "Too many requests"),
                        ("details", .obj [("error_visibility", .str "user")])]),
        ("request_id", .str "req_011CCJChnPTLDH6fMNvMdhoZ")]

/-- A crafted callback request line, for the concrete witnesses. -/
def demoRequest : List Char := "GET /callback?state=S1&code=C1 HTTP/1.1".toList

/-- Two tick environments: a successful fetch, then a transport failure. -/
def demoTicks : List TickEnv :=
  [⟨some (some "tok"), .response 200 "ok-body" (.json sampleUsageJson)⟩,
   ⟨some (some "tok"), .transportFail "connection refused"⟩]

/-! ## Theorems -/

theorem b64Sextet_b64Char (n : Nat) (h : n < 64) : b64Sextet (b64Char n) = some n := by
  interval_cases n <;> rfl

theorem b64Char_urlSafe (n : Nat) : isUrlSafeChar (b64Char n) = true := by
  rcases Nat.lt_or_ge n 64 with h | h
  · interval_cases n <;> rfl
  · have hlen : b64urlAlphabet.length ≤ n := by
      simpa [b64urlAlphabet] using h
    rw [b64Char, List.getD_eq_default _ _ hlen]
    rfl

theorem b64Char_ne_pad (n : Nat) : b64Char n ≠ '=' := by
  intro h
  have := b64Char_urlSafe n
  rw [h] at this
  simp [isUrlSafeChar] at this

/-- Round trip of the base64url codec on byte lists. -/
theorem b64urlDecode_b64urlEncode (bs : List Nat) (hb : ∀ b ∈ bs, b < 256) :
    b64urlDecode (b64urlEncode bs) = some bs := by
  induction bs using b64urlEncode.induct with
  | case1 => rfl
  | case2 b1 =>
      have h1 : b1 < 256 := hb b1 (by simp)
      rw [b64urlEncode, b64urlDecode,
        b64Sextet_b64Char _ (by omega), b64Sextet_b64Char _ (by omega)]
      simp only [Option.bind_eq_bind, Option.some_bind]
      have : b1 % 4 * 16 % 16 = 0 := by omega
      rw [if_pos this]
      have e : b1 / 4 * 4 + b1 % 4 * 16 / 16 = b1 := by omega
      rw [e]
  | case3 b1 b2 =>
      have h1 : b1 < 256 := hb b1 (by simp)
      have h2 : b2 < 256 := hb b2 (by simp)
      rw [b64urlEncode, b64urlDecode,
        b64Sextet_b64Char _ (by omega), b64Sextet_b64Char _ (by omega),
        b64Sextet_b64Char _ (by omega)]
      simp only [Option.bind_eq_bind, Option.some_bind]
      have : b2 % 16 * 4 % 4 = 0 := by omega
      rw [if_pos this]
      have e1 : b1 / 4 * 4 + (b1 % 4 * 16 + b2 / 16) / 16 = b1 := by omega
      have e2 : (b1 % 4 * 16 + b2 / 16) % 16 * 16 + b2 % 16 * 4 / 4 = b2 := by omega
      rw [e1, e2]
  | case4 b1 b2 b3 rest ih =>
      have h1 : b1 < 256 := hb b1 (by simp)
      have h2 : b2 < 256 := hb b2 (by simp)
      have h3 : b3 < 256 := hb b3 (by simp)
      have hrest : ∀ b ∈ rest, b < 256 := fun b hmem => hb b (by simp [hmem])
      rw [b64urlEncode, b64urlDecode,
        b64Sextet_b64Char _ (by omega), b64Sextet_b64Char _ (by omega),
        b64Sextet_b64Char _ (by omega), b64Sextet_b64Char _ (by omega),
        ih hrest]
      simp only [Option.bind_eq_bind, Option.some_bind]
      have e1 : b1 / 4 * 4 + (b1 % 4 * 16 + b2 / 16) / 16 = b1 := by omega
      have e2 : (b1 % 4 * 16 + b2 / 16) % 16 * 16 + (b2 % 16 * 4 + b3 / 64) / 4 = b2 := by
        omega
      have e3 : (b2 % 16 * 4 + b3 / 64) % 4 * 64 + b3 % 64 = b3 := by omega
      rw [e1, e2, e3]

theorem b64urlEncode_no_pad (bs : List Nat) : '=' ∉ b64urlEncode bs := by
  induction bs using b64urlEncode.induct with
  | case1 => simp [b64urlEncode]
  | case2 b1 =>
      simp only [b64urlEncode, List.mem_cons, List.not_mem_nil, or_false]
      rintro (h | h) <;> exact b64Char_ne_pad _ h.symm
  | case3 b1 b2 =>
      simp only [b64urlEncode, List.mem_cons, List.not_mem_nil, or_false]
      rintro (h | h | h) <;> exact b64Char_ne_pad _ h.symm
  | case4 b1 b2 b3 rest ih =>
      simp only [b64urlEncode, List.mem_cons]
      rintro (h | h | h | h | h)
      · exact b64Char_ne_pad _ h.symm
      · exact b64Char_ne_pad _ h.symm
      · exact b64Char_ne_pad _ h.symm
      · exact b64Char_ne_pad _ h.symm
      · exact ih h

theorem b64urlEncode_urlSafe (bs : List Nat) :
    ∀ c ∈ b64urlEncode bs, isUrlSafeChar c = true := by
  induction bs using b64urlEncode.induct with
  | case1 => simp [b64urlEncode]
  | case2 b1 =>
      simp only [b64urlEncode, List.mem_cons, List.not_mem_nil, or_false]
      rintro c (h | h) <;> simp [h, b64Char_urlSafe]
  | case3 b1 b2 =>
      simp only [b64urlEncode, List.mem_cons, List.not_mem_nil, or_false]
      rintro c (h | h | h) <;> simp [h, b64Char_urlSafe]
  | case4 b1 b2 b3 rest ih =>
      simp only [b64urlEncode, List.mem_cons]
      rintro c (h | h | h | h | h)
      · simp [h, b64Char_urlSafe]
      · simp [h, b64Char_urlSafe]
      · simp [h, b64Char_urlSafe]
      · simp [h, b64Char_urlSafe]
      · exact ih c h

theorem hexVal_hexChar (n : Nat) (h : n < 16) : hexVal (hexChar n) = some n := by
  interval_cases n <;> rfl

theorem hexChar_urlSafe (n : Nat) : isUrlSafeChar (hexChar n) = true := by
  rcases Nat.lt_or_ge n 16 with h | h
  · interval_cases n <;> rfl
  · have hlen : hexAlphabet.length ≤ n := by simpa [hexAlphabet] using h
    rw [hexChar, List.getD_eq_default _ _ hlen]
    rfl

theorem hexChar_ne_pad (n : Nat) : hexChar n ≠ '=' := by
  intro h
  have := hexChar_urlSafe n
  rw [h] at this
  simp [isUrlSafeChar] at this

/-- Round trip of the hex codec on byte lists. -/
theorem hexDecode_hexEncode (bs : List Nat) (hb : ∀ b ∈ bs, b < 256) :
    hexDecode (hexEncode bs) = some bs := by
  induction bs with
  | nil => rfl
  | cons b rest ih =>
      have h1 : b < 256 := hb b (by simp)
      have hrest : ∀ x ∈ rest, x < 256 := fun x hmem => hb x (by simp [hmem])
      rw [hexEncode, hexDecode,
        hexVal_hexChar _ (by omega), hexVal_hexChar _ (by omega), ih hrest]
      simp only [Option.bind_eq_bind, Option.some_bind]
      congr 2
      omega

theorem hexEncode_no_pad (bs : List Nat) : '=' ∉ hexEncode bs := by
  induction bs with
  | nil => simp [hexEncode]
  | cons b rest ih =>
      simp only [hexEncode, List.mem_cons]
      rintro (h | h | h)
      · exact hexChar_ne_pad _ h.symm
      · exact hexChar_ne_pad _ h.symm
      · exact ih h

theorem hexEncode_urlSafe (bs : List Nat) :
    ∀ c ∈ hexEncode bs, isUrlSafeChar c = true := by
  induction bs with
  | nil => simp [hexEncode]
  | cons b rest ih =>
      simp only [hexEncode, List.mem_cons]
      rintro c (h | h | h)
      · simp [h, hexChar_urlSafe]
      · simp [h, hexChar_urlSafe]
      · exact ih c h

/-- FIPS 180-4 test vector: the digest of the empty message. -/
theorem sha256_empty_vector :
    sha256 [] = [227, 176, 196, 66, 152, 252, 28, 20, 154, 251, 244, 200,
      153, 111, 185, 36, 39, 174, 65, 228, 100, 155, 147, 76, 164, 149, 153,
      27, 120, 82, 184, 85] := by decide

/-- FIPS 180-4 test vector: the digest of `"abc"`. -/
theorem sha256_abc_vector :
    sha256 [97, 98, 99] = [186, 120, 22, 191, 143, 1, 207, 234, 65, 65, 64,
      222, 93, 174, 34, 35, 176, 3, 97, 163, 150, 23, 122, 156, 180, 16, 255,
      97, 242, 0, 21, 173] := by decide

/-! ## Helper lemmas -/

theorem parseF32_inv (v : Json) (q : ℚ) (h : parseF32 v = some q) : v = .num q := by
  cases v <;> simp_all [parseF32]

theorem parseField_inv {α : Type} (p : Json → Option α) (j : Json) (name : String)
    (x : α) (h : parseField p j name = some x) :
    ∃ v, j.getField name = some v ∧ p v = some x := by
  unfold parseField at h
  cases hv : j.getField name with
  | none => rw [hv] at h; simp at h
  | some v =>
      rw [hv] at h
      simp only [Option.bind_eq_bind, Option.some_bind] at h
      exact ⟨v, rfl, h⟩

theorem parseUsagePeriod_utilization (j : Json) (u : UsagePeriod)
    (h : parseUsagePeriod j = some u) :
    j.getField "utilization" = some (.num u.utilization) := by
  unfold parseUsagePeriod at h
  simp only [Option.bind_eq_bind, Option.bind_eq_some, Option.pure_def,
    Option.some.injEq] at h
  obtain ⟨q, hq, r, hr, hu⟩ := h
  subst hu
  obtain ⟨v, hv, hp⟩ := parseField_inv _ _ _ _ hq
  rw [hv, parseF32_inv _ _ hp]

theorem parseClaudeUsageResponse_fields (j : Json) (usage : ClaudeUsageResponse)
    (h : parseClaudeUsageResponse j = some usage) :
    ∃ fh sd, j.getField "five_hour" = some fh ∧
      parseUsagePeriod fh = some usage.five_hour ∧
      j.getField "seven_day" = some sd ∧
      parseUsagePeriod sd = some usage.seven_day := by
  unfold parseClaudeUsageResponse at h
  simp only [Option.bind_eq_bind, Option.bind_eq_some, Option.pure_def,
    Option.some.injEq] at h
  obtain ⟨fh, hfh, sd, hsd, oa, hoa, op, hop, so, hso, ig, hig, si, hsi, ex, hex, hu⟩ := h
  subst hu
  obtain ⟨v1, hv1, hp1⟩ := parseField_inv _ _ _ _ hfh
  obtain ⟨v2, hv2, hp2⟩ := parseField_inv _ _ _ _ hsd
  exact ⟨v1, v2, hv1, hp1, hv2, hp2⟩

theorem findSubstr_some_spec (needle hay : List Char) (i : Nat)
    (h : findSubstr needle hay = some i) :
    occursAt needle hay i ∧ ∀ j < i, ¬ occursAt needle hay j := by
  induction hay generalizing i with
  | nil =>
      cases hp : needle.isPrefixOf ([] : List Char) with
      | false =>
          simp only [findSubstr, hp, Bool.false_eq_true, if_false] at h
          exact Option.noConfusion h
      | true =>
          simp only [findSubstr, hp, if_true, Option.some.injEq] at h
          subst h
          refine ⟨by simpa [occursAt] using hp, ?_⟩
          intro j hj
          omega
  | cons c rest ih =>
      cases hp : needle.isPrefixOf (c :: rest) with
      | true =>
          simp only [findSubstr, hp, if_true, Option.some.injEq] at h
          subst h
          refine ⟨by simpa [occursAt] using hp, ?_⟩
          intro j hj
          omega
      | false =>
          simp only [findSubstr, hp, Bool.false_eq_true, if_false] at h
          cases hf : findSubstr needle rest with
          | none =>
              rw [hf] at h
              exact Option.noConfusion h
          | some i0 =>
              rw [hf] at h
              simp only [Option.map_some', Option.some.injEq] at h
              subst h
              obtain ⟨hocc, hbefore⟩ := ih i0 hf
              constructor
              · unfold occursAt
                rw [List.drop_succ_cons]
                exact hocc
              · intro j hj
                cases j with
                | zero =>
                    unfold occursAt
                    simp [hp]
                | succ j0 =>
                    unfold occursAt
                    rw [List.drop_succ_cons]
                    exact hbefore j0 (by omega)

theorem findSubstr_none_iff (needle hay : List Char) :
    findSubstr needle hay = none ↔ ∀ i, ¬ occursAt needle hay i := by
  induction hay with
  | nil =>
      cases hp : needle.isPrefixOf ([] : List Char) with
      | true =>
          simp only [findSubstr, hp, if_true]
          constructor
          · intro h; exact absurd h (by simp)
          · intro h; exact absurd (by simpa [occursAt] using hp) (h 0)
      | false =>
          simp only [findSubstr, hp, Bool.false_eq_true, if_false]
          constructor
          · intro _ i
            unfold occursAt
            rw [List.drop_nil]
            simp [hp]
          · intro _; trivial
  | cons c rest ih =>
      cases hp : needle.isPrefixOf (c :: rest) with
      | true =>
          simp only [findSubstr, hp, if_true]
          constructor
          · intro h; exact absurd h (by simp)
          · intro h; exact absurd (by simpa [occursAt] using hp) (h 0)
      | false =>
          simp only [findSubstr, hp, Bool.false_eq_true, if_false]
          constructor
          · intro h i
            cases hf : findSubstr needle rest with
            | some i0 => rw [hf] at h; simp at h
            | none =>
                cases i with
                | zero =>
                    unfold occursAt
                    simp [hp]
                | succ i0 =>
                    unfold occursAt
                    rw [List.drop_succ_cons]
                    exact (ih.mp hf) i0
          · intro h
            cases hf : findSubstr needle rest with
            | none => rfl
            | some i0 =>
                exfalso
                have hocc := (findSubstr_some_spec needle rest i0 hf).1
                exact (h (i0 + 1))
                  (by unfold occursAt; rw [List.drop_succ_cons]; exact hocc)

theorem controllerInv_init : controllerInv controllerInit := Or.inl rfl

theorem controllerInv_preserved (s : ControllerState) (e : ControllerEvent)
    (h : controllerInv s) : controllerInv (controllerObserve s e) := by
  cases e with
  | cmd c =>
      cases c with
      | start =>
          by_cases ht : s.updater_task.isNone
          · rcases h with hl | ⟨t, hl, hu⟩
            · right
              exact ⟨s.nextId, by simp [controllerObserve, controllerStep, ht, hl],
                by simp [controllerObserve, controllerStep, ht]⟩
            · rw [hu] at ht
              simp at ht
          · simpa [controllerObserve, controllerStep, ht] using h
      | stop =>
          rcases h with hl | ⟨t, hl, hu⟩
          · cases hu : s.updater_task with
            | none => simpa [controllerObserve, controllerStep, hu] using Or.inl hl
            | some t => left; simp [controllerObserve, controllerStep, hu, hl]
          · left
            simp [controllerObserve, controllerStep, hu, hl]
  | taskEnds t =>
      rcases h with hl | ⟨t0, hl, hu⟩
      · left
        simp [controllerObserve, hl]
      · by_cases he : t0 = t
        · left
          simp [controllerObserve, hl, he]
        · right
          refine ⟨t0, ?_, hu⟩
          simp only [controllerObserve, hl]
          have hbne : (t0 != t) = true := by simp [he]
          simp [List.filter, hbne]

theorem runController_inv (events : List ControllerEvent) :
    controllerInv (runController events) := by
  suffices h : ∀ s, controllerInv s → controllerInv (events.foldl controllerObserve s) by
    exact h controllerInit controllerInv_init
  induction events with
  | nil => intro s hs; exact hs
  | cons e es ih =>
      intro s hs
      exact ih _ (controllerInv_preserved s e hs)

theorem controllerInv_length_le_one (s : ControllerState) (h : controllerInv s) :
    s.live.length ≤ 1 := by
  rcases h with hl | ⟨t, hl, _⟩ <;> simp [hl]

theorem parse_sampleUsageJson :
    parseClaudeUsageResponse sampleUsageJson = some sampleUsage := rfl

theorem parse_sampleErrorJson_success_fails :
    parseClaudeUsageResponse sampleErrorJson = none := rfl

theorem parse_sampleErrorJson :
    parseClaudeErrorResponse sampleErrorJson = some
      ⟨"error", ⟨"rate_limit_error", "Too many requests",
        ⟨"user"⟩⟩, "req_011CCJChnPTLDH6fMNvMdhoZ"⟩ := rfl

/-- Branch evaluation of `get_usage`, shared by the claims about it. -/
theorem get_usage_eval (status : Nat) (body : Body) :
    (∀ usage, bodyJson? body >>= parseClaudeUsageResponse = some usage →
      get_usage status body = .ok usage) ∧
    (∀ e, bodyJson? body >>= parseClaudeUsageResponse = none →
      bodyJson? body >>= parseClaudeErrorResponse = some e →
      get_usage status body = .apiError e.error.error_type e.error.message e.request_id) ∧
    (bodyJson? body >>= parseClaudeUsageResponse = none →
      bodyJson? body >>= parseClaudeErrorResponse = none →
      get_usage status body = .unrecognized body) := by
  refine ⟨?_, ?_, ?_⟩
  · intro usage h
    unfold get_usage
    rw [h]
  · intro e h1 h2
    unfold get_usage
    rw [h1, h2]
  · intro h1 h2
    unfold get_usage
    rw [h1, h2]

/-- **C3.** Every body received by the usage client is tried against the
success schema first: a body parsing as the success schema yields a snapshot
whose `five_hour` and `seven_day` utilizations equal the corresponding
fields of the body; otherwise a body parsing as the structured-error schema
yields the api-error outcome carrying that body's `request_id` and
`message`; otherwise the outcome is unrecognized, carrying the raw body. -/
theorem get_usage_classification (status : Nat) (body : Body) :
    (∀ j usage, body = .json j → parseClaudeUsageResponse j = some usage →
      get_usage status body = .ok usage ∧
      ∃ fh sd, j.getField "five_hour" = some fh ∧
        fh.getField "utilization" = some (.num usage.five_hour.utilization) ∧
        j.getField "seven_day" = some sd ∧
        sd.getField "utilization" = some (.num usage.seven_day.utilization)) ∧
    (bodyJson? body >>= parseClaudeUsageResponse = none →
      ∀ j e, body = .json j → parseClaudeErrorResponse j = some e →
      get_usage status body = .apiError e.error.error_type e.error.message e.request_id) ∧
    (bodyJson? body >>= parseClaudeUsageResponse = none →
      bodyJson? body >>= parseClaudeErrorResponse = none →
      get_usage status body = .unrecognized body) := by
  refine ⟨?_, ?_, (get_usage_eval status body).2.2⟩
  · rintro j usage rfl hparse
    refine ⟨(get_usage_eval status (.json j)).1 usage (by simpa [bodyJson?] using hparse), ?_⟩
    obtain ⟨fh, sd, hfh, hpfh, hsd, hpsd⟩ :=
      parseClaudeUsageResponse_fields j usage hparse
    exact ⟨fh, sd, hfh, parseUsagePeriod_utilization _ _ hpfh, hsd,
      parseUsagePeriod_utilization _ _ hpsd⟩
  · rintro hsucc j e rfl herr
    exact (get_usage_eval status (.json j)).2.1 e hsucc (by simpa [bodyJson?] using herr)

/-- Concrete instantiation of `get_usage_classification`: a success body, an
error body, and a non-JSON body. -/
theorem get_usage_classification_witness :
    (parseClaudeUsageResponse sampleUsageJson = some sampleUsage ∧
      get_usage 200 (.json sampleUsageJson) = .ok sampleUsage) ∧
    get_usage 200 (.json sampleErrorJson) =
      .apiError "rate_limit_error" "Too many requests" "req_011CCJChnPTLDH6fMNvMdhoZ" ∧
    get_usage 200 (.malformed "Too Many Requests") =
      .unrecognized (.malformed "Too Many Requests") := by
  refine ⟨⟨parse_sampleUsageJson, ?_⟩, ?_, ?_⟩
  · exact ((get_usage_classification 200 (.json sampleUsageJson)).1 _ _ rfl
      parse_sampleUsageJson).1
  · exact (get_usage_classification 200 (.json sampleErrorJson)).2.1 rfl _ _ rfl
      parse_sampleErrorJson
  · exact (get_usage_classification 200 (.malformed "Too Many Requests")).2.2 rfl rfl

/-- **C9.** `get_usage` classifies by body shape alone and ignores the HTTP
status entirely: the result is identical under any two statuses; a body
parsing as the success schema is returned as a successful snapshot at every
status (non-2xx included); and a body parsing as neither schema fails as
unrecognized at every status (2xx included). -/
theorem get_usage_ignores_status :
    (∀ status1 status2 body, get_usage status1 body = get_usage status2 body) ∧
    (∀ status j usage, parseClaudeUsageResponse j = some usage →
      get_usage status (.json j) = .ok usage) ∧
    (∀ status body, bodyJson? body >>= parseClaudeUsageResponse = none →
      bodyJson? body >>= parseClaudeErrorResponse = none →
      get_usage status body = .unrecognized body) := by
  refine ⟨fun _ _ _ => rfl, ?_, ?_⟩
  · intro status j usage hparse
    exact (get_usage_eval status (.json j)).1 usage (by simpa [bodyJson?] using hparse)
  · intro status body h1 h2
    exact (get_usage_eval status body).2.2 h1 h2

/-- Concrete instantiation of `get_usage_ignores_status`: a success body
under a 500 status is still a success; a non-JSON body under a 200 status is
still a failure. -/
theorem get_usage_ignores_status_witness :
    get_usage 500 (.json sampleUsageJson) = get_usage 200 (.json sampleUsageJson) ∧
    (parseClaudeUsageResponse sampleUsageJson = some sampleUsage ∧
      get_usage 500 (.json sampleUsageJson) = .ok sampleUsage) ∧
    get_usage 200 (.malformed "oops") = .unrecognized (.malformed "oops") := by
  refine ⟨get_usage_ignores_status.1 500 200 _, ⟨parse_sampleUsageJson, ?_⟩, ?_⟩
  · exact get_usage_ignores_status.2.1 500 sampleUsageJson sampleUsage parse_sampleUsageJson
  · exact get_usage_ignores_status.2.2 200 (.malformed "oops") rfl rfl

/-- **C5.** Save followed by Load returns a credential equal field-for-field
to the one saved, and the persisted file contains exactly the two minimal
secret fields; the broader token-response metadata (`expires_in`,
`token_type`, `organization`, `account`) is discarded before writing. -/
theorem save_load_roundtrip (credentials : AnthropicTokenResponse) :
    get_local_credentials (save_credentials_locally credentials).2 =
      some (save_credentials_locally credentials).1 ∧
    (save_credentials_locally credentials).1 =
      ⟨credentials.access_token, credentials.refresh_token⟩ ∧
    (save_credentials_locally credentials).2 =
      .obj [("access_token", .str credentials.access_token),
            ("refresh_token", .str credentials.refresh_token)] :=
  ⟨rfl, rfl, rfl⟩

/-- **C6.** The code challenge is a pure, deterministic function of the
verifier — equal inputs give equal outputs — and equals the
base64url-no-padding encoding of the SHA-256 digest of the verifier's bytes
(in particular no `'='` padding ever appears). -/
theorem generate_code_challenge_spec :
    (∀ verifier : List Nat,
      generate_code_challenge verifier = b64urlEncode (sha256 verifier)) ∧
    (∀ v1 v2 : List Nat, v1 = v2 →
      generate_code_challenge v1 = generate_code_challenge v2) ∧
    (∀ verifier : List Nat, '=' ∉ generate_code_challenge verifier) :=
  ⟨fun _ => rfl, fun _ _ h => by rw [h], fun _ => b64urlEncode_no_pad _⟩

/-- Concrete instantiation of `generate_code_challenge_spec` at the
one-byte verifier `"a"`. -/
theorem generate_code_challenge_spec_witness :
    generate_code_challenge [0x61] = b64urlEncode (sha256 [0x61]) ∧
    ([0x61] = ([0x61] : List Nat) ∧
      generate_code_challenge [0x61] = generate_code_challenge [0x61]) :=
  ⟨generate_code_challenge_spec.1 [0x61],
    rfl, generate_code_challenge_spec.2.1 [0x61] [0x61] rfl⟩

/-- **C7.** With the 32 random bytes drawn by `rand::random::<[u8; 32]>()`:
the code verifier is URL-safe text with no padding characters that
base64url-decodes to exactly the 32 input bytes, and the state is URL-safe
text (lowercase hex) with no padding characters that hex-decodes to the 32
input bytes — at least 16. -/
theorem pkce_random_outputs_spec (randomBytes : List Nat)
    (hlen : randomBytes.length = 32) (hrange : ∀ b ∈ randomBytes, b < 256) :
    ((∀ c ∈ generate_code_verifier randomBytes, isUrlSafeChar c = true) ∧
      '=' ∉ generate_code_verifier randomBytes ∧
      b64urlDecode (generate_code_verifier randomBytes) = some randomBytes ∧
      randomBytes.length = 32) ∧
    ((∀ c ∈ generate_state randomBytes, isUrlSafeChar c = true) ∧
      '=' ∉ generate_state randomBytes ∧
      hexDecode (generate_state randomBytes) = some randomBytes ∧
      16 ≤ randomBytes.length) :=
  ⟨⟨b64urlEncode_urlSafe _, b64urlEncode_no_pad _,
    b64urlDecode_b64urlEncode _ hrange, hlen⟩,
   ⟨hexEncode_urlSafe _, hexEncode_no_pad _,
    hexDecode_hexEncode _ hrange, by omega⟩⟩

/-- Concrete instantiation of `pkce_random_outputs_spec` at the byte list
`0, 1, …, 31`. -/
theorem pkce_random_outputs_spec_witness :
    (List.range 32).length = 32 ∧
    b64urlDecode (generate_code_verifier (List.range 32)) = some (List.range 32) ∧
    hexDecode (generate_state (List.range 32)) = some (List.range 32) :=
  ⟨by decide,
    (pkce_random_outputs_spec (List.range 32) (by decide) (by decide)).1.2.2.1,
    (pkce_random_outputs_spec (List.range 32) (by decide) (by decide)).2.2.2.1⟩

/-- **C4.** For every received callback text and expected state: if `state`
extraction yields the expected state and `code` extraction yields a code,
the call returns that code; if the extracted state differs from the expected
state, it fails with the `StateMismatch` message — with no dependence on the
`code` parameter, i.e. before any code extraction (and in
`open_oauth_login` the token exchange only runs on an `ok` return); if the
`state` or the `code` parameter is absent, it fails with that parameter's
`ParamNotFound` message. -/
theorem wait_for_oauth_callback_spec (request expectedState : List Char) :
    (∀ s c, extract_param_from_url request "state".toList = .ok s →
      s = expectedState →
      extract_param_from_url request "code".toList = .ok c →
      wait_for_oauth_callback request expectedState = .ok c) ∧
    (∀ s, extract_param_from_url request "state".toList = .ok s →
      s ≠ expectedState →
      wait_for_oauth_callback request expectedState =
        .error "state value is not the same".toList) ∧
    (∀ e, extract_param_from_url request "state".toList = .error e →
      wait_for_oauth_callback request expectedState = .error e) ∧
    (∀ s e, extract_param_from_url request "state".toList = .ok s →
      s = expectedState →
      extract_param_from_url request "code".toList = .error e →
      wait_for_oauth_callback request expectedState = .error e) := by
  refine ⟨?_, ?_, ?_, ?_⟩
  · rintro s c hs rfl hc
    unfold wait_for_oauth_callback
    rw [hs, hc]
    simp
  · intro s hs hne
    unfold wait_for_oauth_callback
    rw [hs]
    simp [hne]
  · intro e hs
    unfold wait_for_oauth_callback
    rw [hs]
  · rintro s e hs rfl he
    unfold wait_for_oauth_callback
    rw [hs, he]
    simp

/-- Concrete instantiation of `wait_for_oauth_callback_spec` on
`demoRequest`: the matching expected state returns the code, a different
expected state hits the `StateMismatch` message. -/
theorem wait_for_oauth_callback_spec_witness :
    (extract_param_from_url demoRequest "state".toList = .ok "S1".toList ∧
      extract_param_from_url demoRequest "code".toList = .ok "C1".toList ∧
      wait_for_oauth_callback demoRequest "S1".toList = .ok "C1".toList) ∧
    ("S1".toList ≠ "S2".toList ∧
      wait_for_oauth_callback demoRequest "S2".toList =
        .error "state value is not the same".toList) := by
  refine ⟨⟨rfl, rfl, ?_⟩, ⟨by decide, ?_⟩⟩
  · exact (wait_for_oauth_callback_spec demoRequest "S1".toList).1 _ _ rfl rfl rfl
  · exact (wait_for_oauth_callback_spec demoRequest "S2".toList).2.1 _ rfl (by decide)

/-- **C10.** `extract_param_from_url` returns the text following the first
occurrence of `name=` anywhere in the request, up to the first space or
`'&'` (or the end of the text), and fails exactly when no occurrence
exists; the match is a raw substring match over the whole request, so a
lookup for `code` also matches the tail of a longer parameter name such as
`error_code=` occurring earlier. -/
theorem extract_param_from_url_spec (request paramName : List Char) :
    (∀ value, extract_param_from_url request paramName = .ok value →
      ∃ i, occursAt (paramName ++ ['=']) request i ∧
        (∀ j < i, ¬ occursAt (paramName ++ ['=']) request j) ∧
        value = (request.drop (i + paramName.length + 1)).takeWhile notDelim) ∧
    (extract_param_from_url request paramName =
        .error (toLowerList (paramName ++ " parameter not found in callback".toList)) ↔
      ∀ i, ¬ occursAt (paramName ++ ['=']) request i) ∧
    extract_param_from_url "GET /cb?error_code=5&code=real HTTP/1.1".toList
      "code".toList = .ok "5".toList := by
  refine ⟨?_, ?_, rfl⟩
  · intro value hv
    unfold extract_param_from_url at hv
    cases hf : findSubstr (paramName ++ ['=']) request with
    | none => rw [hf] at hv; exact Except.noConfusion hv
    | some i =>
        rw [hf] at hv
        obtain ⟨hocc, hbefore⟩ := findSubstr_some_spec _ _ _ hf
        have hlen : (paramName ++ ['=']).length = paramName.length + 1 := by simp
        rw [hlen] at hv
        injection hv with hv
        exact ⟨i, hocc, hbefore, hv.symm⟩
  · constructor
    · intro h i
      unfold extract_param_from_url at h
      cases hf : findSubstr (paramName ++ ['=']) request with
      | none => exact (findSubstr_none_iff _ _).mp hf i
      | some i0 => rw [hf] at h; exact Except.noConfusion h
    · intro h
      unfold extract_param_from_url
      rw [(findSubstr_none_iff _ _).mpr h]

/-- The loop of `usage_updater_task` stops at the first failing tick:
it consumes exactly `k + 1` ticks, fetches once per preceding successful
tick (plus once more only if the failing tick itself reached the fetch),
writes one gauge update per preceding successful tick, and breaks with an
error. -/
theorem runLoop_first_failure (ticks : List TickEnv) (k : Nat)
    (hk : k < ticks.length)
    (hfail : tickFails (ticks.get ⟨k, hk⟩) = true)
    (hbefore : ∀ j (hj : j < k), tickFails (ticks.get ⟨j, Nat.lt_trans hj hk⟩) = false) :
    (runLoop ticks).ticks = k + 1 ∧
    (runLoop ticks).fetches =
      k + (if tickFetches (ticks.get ⟨k, hk⟩) = true then 1 else 0) ∧
    (runLoop ticks).gaugeWrites.length = k ∧
    (runLoop ticks).failure.isSome = true := by
  induction ticks generalizing k with
  | nil => exact absurd hk (by simp)
  | cons t rest ih =>
      cases k with
      | zero =>
          have hfail0 : tickFails t = true := hfail
          cases hl : t.lookup with
          | none =>
              refine ⟨?_, ?_, ?_, ?_⟩ <;> simp [runLoop, hl, tickFetches]
          | some inner =>
              cases inner with
              | none =>
                  refine ⟨?_, ?_, ?_, ?_⟩ <;> simp [runLoop, hl, tickFetches]
              | some token =>
                  by_cases he : token = ""
                  · refine ⟨?_, ?_, ?_, ?_⟩ <;> simp [runLoop, hl, he, tickFetches]
                  · cases hr : fetchResult t.fetch with
                    | ok usage =>
                        exfalso
                        simp [tickFails, hl, he, hr] at hfail0
                    | error e =>
                        refine ⟨?_, ?_, ?_, ?_⟩ <;>
                          simp [runLoop, hl, he, hr, tickFetches]
      | succ k0 =>
          have h0 : tickFails t = false := hbefore 0 (Nat.succ_pos k0)
          cases hl : t.lookup with
          | none => simp [tickFails, hl] at h0
          | some inner =>
              cases inner with
              | none => simp [tickFails, hl] at h0
              | some token =>
                  by_cases he : token = ""
                  · simp [tickFails, hl, he] at h0
                  · cases hr : fetchResult t.fetch with
                    | error e => simp [tickFails, hl, he, hr] at h0
                    | ok usage =>
                        have hk0 : k0 < rest.length := Nat.lt_of_succ_lt_succ hk
                        have hfail0 : tickFails (rest.get ⟨k0, hk0⟩) = true := hfail
                        have hbefore0 : ∀ j (hj : j < k0),
                            tickFails (rest.get ⟨j, Nat.lt_trans hj hk0⟩) = false :=
                          fun j hj => hbefore (j + 1) (Nat.succ_lt_succ hj)
                        obtain ⟨e1, e2, e3, e4⟩ := ih k0 hk0 hfail0 hbefore0
                        have ht : (runLoop (t :: rest)).ticks =
                            (runLoop rest).ticks + 1 := by
                          simp [runLoop, hl, he, hr]
                        have hf2 : (runLoop (t :: rest)).fetches =
                            (runLoop rest).fetches + 1 := by
                          simp [runLoop, hl, he, hr]
                        have hg : (runLoop (t :: rest)).gaugeWrites.length =
                            (runLoop rest).gaugeWrites.length + 1 := by
                          simp [runLoop, hl, he, hr]
                        have hfl : (runLoop (t :: rest)).failure =
                            (runLoop rest).failure := by
                          simp [runLoop, hl, he, hr]
                        have hget : ((t :: rest).get ⟨k0 + 1, hk⟩ : TickEnv) =
                            rest.get ⟨k0, hk0⟩ := rfl
                        refine ⟨?_, ?_, ?_, ?_⟩
                        · rw [ht, e1]
                        · rw [hf2, e2, hget]
                          omega
                        · rw [hg, e3]
                        · rw [hfl]
                          exact e4

/-- **C1.** The first failing tick (missing or empty token, transport
failure, error-shaped body, or unrecognized body) is terminal for the
session: the loop consumes exactly `k + 1` ticks and performs no fetch
after the failing one (one fetch per preceding successful tick, plus the
failing tick's own fetch only when it reached the fetch), the logged-in
flag is set to false, the in-memory credential is cleared, and a `Stop`
notification is emitted to the updater channel; the failed fetch is never
retried. -/
theorem usage_updater_first_failure_terminal (ticks : List TickEnv) (k : Nat)
    (hk : k < ticks.length)
    (hfail : tickFails (ticks.get ⟨k, hk⟩) = true)
    (hbefore : ∀ j (hj : j < k), tickFails (ticks.get ⟨j, Nat.lt_trans hj hk⟩) = false) :
    (usage_updater_task ticks).trace.ticks = k + 1 ∧
    (usage_updater_task ticks).trace.fetches =
      k + (if tickFetches (ticks.get ⟨k, hk⟩) = true then 1 else 0) ∧
    (usage_updater_task ticks).trace.gaugeWrites.length = k ∧
    (usage_updater_task ticks).trace.failure.isSome = true ∧
    (usage_updater_task ticks).loginSetFalse = true ∧
    (usage_updater_task ticks).credentialCleared = true ∧
    (usage_updater_task ticks).stopSent = true := by
  obtain ⟨e1, e2, e3, e4⟩ := runLoop_first_failure ticks k hk hfail hbefore
  exact ⟨e1, e2, e3, e4, e4, e4, e4⟩

/-- Concrete instantiation of `usage_updater_first_failure_terminal` on
`demoTicks`: the failure on tick 1 stops the loop after 2 ticks and
2 fetches, with one gauge write, and triggers the logout actions. -/
theorem usage_updater_first_failure_terminal_witness :
    (1 < demoTicks.length ∧
      tickFails (demoTicks.get ⟨1, by simp [demoTicks]⟩) = true) ∧
    (usage_updater_task demoTicks).trace.ticks = 2 ∧
    (usage_updater_task demoTicks).trace.fetches = 2 ∧
    (usage_updater_task demoTicks).trace.gaugeWrites.length = 1 ∧
    (usage_updater_task demoTicks).loginSetFalse = true ∧
    (usage_updater_task demoTicks).credentialCleared = true ∧
    (usage_updater_task demoTicks).stopSent = true := by
  have hk : 1 < demoTicks.length := by simp [demoTicks]
  have hfail : tickFails (demoTicks.get ⟨1, hk⟩) = true := rfl
  have hbefore : ∀ j (hj : j < 1),
      tickFails (demoTicks.get ⟨j, Nat.lt_trans hj hk⟩) = false := by
    intro j hj
    have hj0 : j = 0 := by omega
    subst hj0
    rfl
  obtain ⟨e1, e2, e3, e4, e5, e6, e7⟩ :=
    usage_updater_first_failure_terminal demoTicks 1 hk hfail hbefore
  refine ⟨⟨hk, hfail⟩, e1, ?_, e3, e5, e6, e7⟩
  rw [e2]
  rfl

/-- **C2 counterexample.** In the initial state — no credential present, no
task handle — a `Start` command still spawns the polling loop: the
controller transitions `Idle → Running` without consulting the credential,
so "only if a credential is present" fails on the code. -/
theorem controller_start_without_credential :
    controllerInit.credential = none ∧
    controllerInit.updater_task = none ∧
    (controllerStep controllerInit .start).updater_task = some 0 ∧
    (controllerStep controllerInit .start).live = [0] :=
  ⟨rfl, rfl, rfl, rfl⟩

/-- **C2 (amended).** On a `Start` command the controller spawns the polling
loop exactly when no task handle is present, regardless of credential
presence (the credential guard lives at the sites that send `Start`, not in
the controller); `Start` while a task handle is present is a no-op; and
along every event sequence at most one polling loop is alive. -/
theorem controller_start_guard :
    (∀ s, s.updater_task = none →
      (controllerStep s .start).updater_task = some s.nextId ∧
      (controllerStep s .start).live = s.nextId :: s.live ∧
      (controllerStep s .start).credential = s.credential) ∧
    (∀ s t, s.updater_task = some t → controllerStep s .start = s) ∧
    (∀ events, (runController events).live.length ≤ 1) := by
  refine ⟨?_, ?_, ?_⟩
  · intro s h
    refine ⟨?_, ?_, ?_⟩ <;> simp [controllerStep, h]
  · intro s t h
    simp [controllerStep, h]
  · intro events
    exact controllerInv_length_le_one _ (runController_inv events)

/-- Concrete instantiation of `controller_start_guard`: starting from the
initial state, the first `Start` spawns, the second is a no-op, and the
live-loop count stays at most one. -/
theorem controller_start_guard_witness :
    controllerInit.updater_task = none ∧
    (controllerStep controllerInit .start).updater_task = some controllerInit.nextId ∧
    (controllerStep (controllerStep controllerInit .start) .start =
      controllerStep controllerInit .start) ∧
    (runController [.cmd .start, .cmd .start]).live.length ≤ 1 := by
  refine ⟨rfl, (controller_start_guard.1 controllerInit rfl).1, ?_, ?_⟩
  · exact controller_start_guard.2.1 (controllerStep controllerInit .start) 0 rfl
  · exact controller_start_guard.2.2 [.cmd .start, .cmd .start]

/-- Concrete instantiation of `extract_param_from_url_spec` on
`demoRequest`: extraction succeeds with `"S1"` and the first-occurrence
decomposition holds for it. -/
theorem extract_param_from_url_spec_witness :
    extract_param_from_url demoRequest "state".toList = .ok "S1".toList ∧
    (∃ i, occursAt ("state".toList ++ ['=']) demoRequest i ∧
      (∀ j < i, ¬ occursAt ("state".toList ++ ['=']) demoRequest j) ∧
      "S1".toList =
        (demoRequest.drop (i + "state".toList.length + 1)).takeWhile notDelim) :=
  ⟨rfl, (extract_param_from_url_spec demoRequest "state".toList).1 _ rfl⟩
